import Mathlib

/-!
Shallow embedding of `src/exengine/model.c` (skinned-model animation):
playback-state advancement (`model_update`), clip selection
(`model_set_anim`), direct pose set (`model_set_pose`), pose blending
(`mix_pose`) and skeleton matrix composition (`model_update_matrices`,
`calc_bone_matrix`).

Modelling conventions:
* C `float`/`double` arithmetic is modelled exactly over `ℚ`; the casts
  `(uint32_t)(float)` and `floor()` are modelled by `Int.floor` (they
  agree on the non-negative values playback produces).
* `uint32_t` quantities are modelled by `ℕ`; the claims under study
  involve values far below `2^32`, so wrap-around is not modelled.
* The linear-algebra primitives (`mat4x4_*`, `quat_slerp`, `quat_norm`,
  `vec3_lerp`) live in the engine's math library, outside the provided
  source.  Matrices are modelled over an abstract monoid `M` whose
  multiplication is `mat4x4_mul` read in the row-vector convention the
  engine uses (it uploads with `GL_TRUE`/transpose, so in `a * b` the
  factor `a` applies to a vertex first); the quaternion operations are
  abstract function parameters, bundled in `ExtLib`.
* The mesh-list transform propagation at the top of `model_update` and
  the GL draw calls touch collaborator-owned state only and are outside
  the modelled `Model` record.
-/

/-- A 3-component vector (`vec3`), exact-rational model of `float[3]`. -/
structure Vec3 where
  x : ℚ
  y : ℚ
  z : ℚ

/-- A quaternion (`quat`), exact-rational model of `float[4]`, `w` last. -/
structure Quat where
  x : ℚ
  y : ℚ
  z : ℚ
  w : ℚ

/-- One keyframe pose entry (`pose_t`): translate, rotate, scale. -/
structure Pose where
  translate : Vec3
  rotate : Quat
  scale : Vec3

/-- An animation clip (`anim_t`): first/last frame, rate, loop flag. -/
structure Anim where
  first : ℕ
  last : ℕ
  rate : ℚ
  loop : Bool

/-- A bone (`bone_t`); only the parent index is read by the update path.
`parent` is a C `int`: negative means "no parent" (root). -/
structure BoneT where
  parent : ℤ

/-- The external math library surface used by `model.c`, abstracted:
`scaleM`, `rotM`, `transM` are `mat4x4_scale_xyz`, `mat4x4_rotate_quat`,
`mat4x4_translate` producing values of the matrix monoid `M`;
`slerpF` and `normF` are `quat_slerp` and `quat_norm`. -/
structure ExtLib (M : Type) where
  scaleM : Vec3 → M
  rotM : Quat → M
  transM : Vec3 → M
  slerpF : Quat → Quat → ℚ → Quat
  normF : Quat → Quat

/-- The model state (`model_t`) restricted to the fields the animation
subsystem reads or writes.  Arrays are modelled as total functions from
indices (the C code never bounds-checks its array reads). -/
structure Model (M : Type) where
  current_anim : Option ℕ
  anims_len : ℕ
  anims : ℕ → Anim
  current_time : ℚ
  current_frame : ℕ
  frames : ℕ → ℕ → Pose
  bones_len : ℕ
  bones : ℕ → BoneT
  pose : ℕ → Pose
  inverse_base : ℕ → M
  skeleton : ℕ → M

/-- The C cast `(uint32_t)` applied to a non-negative float expression:
truncation, modelled as `Int.floor` composed with `Int.toNat` (the two
agree for the non-negative values playback arithmetic produces). -/
def floorNat (q : ℚ) : ℕ := (Int.floor q).toNat

/-- `position - (float)floor(position)`: the fractional part used as the
blend weight. -/
def fract (q : ℚ) : ℚ := q - (Int.floor q : ℚ)

/-- Modelled from the spec: `vec3_lerp` (engine math library, not in the
provided source) — component-wise linear interpolation. -/
def vec3_lerp (a b : Vec3) (t : ℚ) : Vec3 :=
  { x := a.x + (b.x - a.x) * t
    y := a.y + (b.y - a.y) * t
    z := a.z + (b.z - a.z) * t }

/-- `mix_pose(m, a, b, weight)`: clamp the weight to `[0,1]`, then for
every bone lerp translate and scale, slerp + renormalize the rotation,
and store the result in the pose buffer. -/
def mix_pose {M : Type} (L : ExtLib M) (m : Model M) (a b : ℕ → Pose)
    (weight : ℚ) : Model M :=
  let w := min (max weight 0) 1
  { m with pose := fun i =>
      if i < m.bones_len then
        { translate := vec3_lerp (a i).translate (b i).translate w
          rotate := L.normF (L.slerpF (a i).rotate (b i).rotate w)
          scale := vec3_lerp (a i).scale (b i).scale w }
      else m.pose i }

/-- `model_set_pose(m, frame)`: copy each bone's entry into the pose
buffer, renormalizing the rotation before it is stored. -/
def model_set_pose {M : Type} (L : ExtLib M) (m : Model M)
    (frame : ℕ → Pose) : Model M :=
  { m with pose := fun i =>
      if i < m.bones_len then
        { translate := (frame i).translate
          rotate := L.normF (frame i).rotate
          scale := (frame i).scale }
      else m.pose i }

/-- `model_set_anim(m, index)`: reject `index > anims_len` by clearing
`current_anim` (note the C guard is `>`, not `>=`); otherwise activate
clip `index` and reset `current_time` and `current_frame`. -/
def model_set_anim {M : Type} (m : Model M) (index : ℕ) : Model M :=
  if index > m.anims_len then
    { m with current_anim := none }
  else
    { m with current_anim := some index
             current_time := 0
             current_frame := (m.anims index).first }

/-- `calc_bone_matrix(m, pos, rot, scale)`: start from the identity and
multiply scale, then rotation, then translation on the right
(`mat4x4_mul(m, m, mat)` three times). -/
def calc_bone_matrix {M : Type} [Monoid M] (L : ExtLib M) (p : Pose) : M :=
  let m0 : M := 1
  let m1 := m0 * L.scaleM p.scale
  let m2 := m1 * L.rotM p.rotate
  m2 * L.transM p.translate

/-- The `transform[]` array built by the loop in
`model_update_matrices`: entry `i` is the bone's local matrix, composed
with `transform[parent]` when `parent >= 0`.  A parent index outside the
already-written prefix reads the default `1` (in C this would read an
uninitialized stack slot; the hierarchy precondition rules it out). -/
def transforms {M : Type} [Monoid M] (L : ExtLib M) (m : Model M) :
    ℕ → List M
  | 0 => []
  | n + 1 =>
    let acc := transforms L m n
    let mat := calc_bone_matrix L (m.pose n)
    acc ++ [if 0 ≤ (m.bones n).parent then
              mat * acc.getD (m.bones n).parent.toNat 1
            else mat]

/-- `model_update_matrices(m)`: for each bone, write
`skeleton[i] = inverse_base[i] * transform[i]`. -/
def model_update_matrices {M : Type} [Monoid M] (L : ExtLib M)
    (m : Model M) : Model M :=
  let tf := transforms L m m.bones_len
  { m with skeleton := fun i =>
      if i < m.bones_len then m.inverse_base i * tf.getD i 1
      else m.skeleton i }

/-- `model_update(m, delta_time)` without the mesh-transform loop (it
touches collaborator state only): early-out when no clip is active,
hold when a non-looping clip is past `len = last + first`, otherwise
advance time, recompute the frame indices with loop wrap / clamp, blend
the two frames into the pose buffer and recompose the skeleton. -/
def model_update {M : Type} [Monoid M] (L : ExtLib M) (m : Model M)
    (delta_time : ℚ) : Model M :=
  match m.current_anim with
  | none => m
  | some ai =>
    let anim := m.anims ai
    -- uint32_t current_frame = m->current_time * anim->rate;
    let current_frame := floorNat (m.current_time * anim.rate)
    -- uint32_t len = anim->last + anim->first;   (the literal sum)
    let len := anim.last + anim.first
    let position := m.current_time * anim.rate
    if len < current_frame ∧ anim.loop = false then m
    else
      let ctA := m.current_time + delta_time
      let cfA := anim.first + current_frame
      let next0 := cfA + 1
      let st :=
        if len ≤ cfA then
          if anim.loop then
            -- m->current_time -= len / anim->rate;  (dead: overwritten)
            let _tDead := ctA - (len : ℚ) / anim.rate
            let tZero : ℚ := 0
            (tZero, floorNat ((anim.first : ℚ) + tZero * anim.rate))
          else (ctA, anim.last)
        else (ctA, cfA)
      let next1 := if len ≤ next0 then anim.first else next0
      let m1 := { m with current_time := st.1, current_frame := st.2 }
      let m2 := mix_pose L m1 (m1.frames st.2) (m1.frames next1)
        (fract position)
      model_update_matrices L m2

/-- `model_update` with the frame-span formula abstracted: `span` is
applied to the clip's `first` and `last`; everything else is identical
to `model_update`.  Comparing instantiations of this definition settles
which span formula the code uses. -/
def model_update_span {M : Type} [Monoid M] (span : ℕ → ℕ → ℕ)
    (L : ExtLib M) (m : Model M) (delta_time : ℚ) : Model M :=
  match m.current_anim with
  | none => m
  | some ai =>
    let anim := m.anims ai
    let current_frame := floorNat (m.current_time * anim.rate)
    let len := span anim.first anim.last
    let position := m.current_time * anim.rate
    if len < current_frame ∧ anim.loop = false then m
    else
      let ctA := m.current_time + delta_time
      let cfA := anim.first + current_frame
      let next0 := cfA + 1
      let st :=
        if len ≤ cfA then
          if anim.loop then
            let _tDead := ctA - (len : ℚ) / anim.rate
            let tZero : ℚ := 0
            (tZero, floorNat ((anim.first : ℚ) + tZero * anim.rate))
          else (ctA, anim.last)
        else (ctA, cfA)
      let next1 := if len ≤ next0 then anim.first else next0
      let m1 := { m with current_time := st.1, current_frame := st.2 }
      let m2 := mix_pose L m1 (m1.frames st.2) (m1.frames next1)
        (fract position)
      model_update_matrices L m2

/-- The spec's local bone matrix (§4.3 step 1): scale, then rotation,
then translation — under the row-vector convention, the leftmost factor
applies to a vertex first, so scale is innermost. -/
def localSpec {M : Type} [Monoid M] (L : ExtLib M) (m : Model M)
    (i : ℕ) : M :=
  L.scaleM (m.pose i).scale * L.rotM (m.pose i).rotate
    * L.transM (m.pose i).translate

/-- The spec's world transform of bone `i` (§4.3 steps 2-3): local
matrix composed with the parent's world transform when a parent exists,
the local matrix alone at a root.  The guard also requires
`parent < i` so the recursion terminates; under the ancestor-first
precondition this coincides with `parent >= 0`. -/
def worldSpec {M : Type} [Monoid M] (L : ExtLib M) (m : Model M)
    (i : ℕ) : M :=
  if h : 0 ≤ (m.bones i).parent ∧ ((m.bones i).parent).toNat < i then
    localSpec L m i * worldSpec L m ((m.bones i).parent).toNat
  else localSpec L m i
termination_by i
decreasing_by exact h.2

/-- A quaternion of unit length (exact-arithmetic reading). -/
abbrev unitQuat (q : Quat) : Prop :=
  q.x * q.x + q.y * q.y + q.z * q.z + q.w * q.w = 1

/-! Concrete instances used to exhibit behaviour at specific inputs. -/

/-- A rest pose entry: identity rotation, unit scale. -/
def pose0 : Pose := ⟨⟨0, 0, 0⟩, ⟨0, 0, 0, 1⟩, ⟨1, 1, 1⟩⟩

/-- A second, distinct pose entry. -/
def pose1 : Pose := ⟨⟨1, 2, 3⟩, ⟨0, 0, 0, 1⟩, ⟨2, 2, 2⟩⟩

/-- A frame holding `pose0` for every bone. -/
def fA : ℕ → Pose := fun _ => pose0

/-- A frame holding `pose1` for every bone. -/
def fB : ℕ → Pose := fun _ => pose1

/-- External library instance over the trivial matrix monoid: slerp
returns its first argument and the normalizer is the identity. -/
def trivExt : ExtLib Unit where
  scaleM := fun _ => ()
  rotM := fun _ => ()
  transM := fun _ => ()
  slerpF := fun a _ _ => a
  normF := fun q => q

/-- External library instance whose normalizer returns the identity
quaternion, hence always a unit quaternion. -/
def unitExt : ExtLib Unit :=
  { trivExt with normF := fun _ => ⟨0, 0, 0, 1⟩ }

/-- External library instance over the multiplicative monoid `ℚ`. -/
def ratExt : ExtLib ℚ where
  scaleM := fun v => v.x
  rotM := fun q => q.w
  transM := fun v => 1 + v.x
  slerpF := fun a _ _ => a
  normF := fun q => q

/-- A model playing clip `{first := 2, last := 3, rate := 1, loop}` at
`current_time = 2`: one tick lands `current_frame` outside the clip. -/
def mC1 : Model Unit where
  current_anim := some 0
  anims_len := 1
  anims := fun _ => ⟨2, 3, 1, true⟩
  current_time := 2
  current_frame := 2
  frames := fun _ _ => pose0
  bones_len := 1
  bones := fun _ => ⟨-1⟩
  pose := fun _ => pose0
  inverse_base := fun _ => ()
  skeleton := fun _ => ()

/-- A model with exactly one clip (valid index `0` only). -/
def mC2 : Model Unit where
  current_anim := none
  anims_len := 1
  anims := fun _ => ⟨0, 10, 30, true⟩
  current_time := 7
  current_frame := 5
  frames := fun _ _ => pose0
  bones_len := 1
  bones := fun _ => ⟨-1⟩
  pose := fun _ => pose0
  inverse_base := fun _ => ()
  skeleton := fun _ => ()

/-- A model on a non-looping clip `{first := 2, last := 3, rate := 1}`
at `current_time = 4`: the sum-span and difference-span updates give
different results here. -/
def mC3 : Model Unit where
  current_anim := some 0
  anims_len := 1
  anims := fun _ => ⟨2, 3, 1, false⟩
  current_time := 4
  current_frame := 0
  frames := fun _ _ => pose0
  bones_len := 1
  bones := fun _ => ⟨-1⟩
  pose := fun _ => pose0
  inverse_base := fun _ => ()
  skeleton := fun _ => ()

/-- A model holding past the end of a non-looping clip
`{first := 0, last := 1, rate := 1}` at `current_time = 5`. -/
def mC4 : Model Unit where
  current_anim := some 0
  anims_len := 1
  anims := fun _ => ⟨0, 1, 1, false⟩
  current_time := 5
  current_frame := 1
  frames := fun _ _ => pose0
  bones_len := 1
  bones := fun _ => ⟨-1⟩
  pose := fun _ => pose0
  inverse_base := fun _ => ()
  skeleton := fun _ => ()

/-- A model on a looping clip `{first := 1, last := 2, rate := 1}` at
`current_time = 3`, exactly at the wrap threshold. -/
def mC5 : Model Unit where
  current_anim := some 0
  anims_len := 1
  anims := fun _ => ⟨1, 2, 1, true⟩
  current_time := 3
  current_frame := 2
  frames := fun _ _ => pose0
  bones_len := 1
  bones := fun _ => ⟨-1⟩
  pose := fun _ => pose0
  inverse_base := fun _ => ()
  skeleton := fun _ => ()

/-- A two-bone model (root plus one child) over the monoid `ℚ`. -/
def mC6 : Model ℚ where
  current_anim := some 0
  anims_len := 1
  anims := fun _ => ⟨0, 1, 1, true⟩
  current_time := 0
  current_frame := 0
  frames := fun _ _ => pose1
  bones_len := 2
  bones := fun j => if j = 0 then ⟨-1⟩ else ⟨0⟩
  pose := fun _ => pose1
  inverse_base := fun _ => 2
  skeleton := fun _ => 1

/-- A one-bone model used for the blending instances. -/
def mC7 : Model Unit where
  current_anim := none
  anims_len := 1
  anims := fun _ => ⟨0, 1, 1, true⟩
  current_time := 0
  current_frame := 0
  frames := fun _ _ => pose0
  bones_len := 1
  bones := fun _ => ⟨-1⟩
  pose := fun _ => pose0
  inverse_base := fun _ => ()
  skeleton := fun _ => ()

/-- When a tick proceeds past the hold check and the recomputed frame
stays strictly below the span, `model_update` ends with
`current_frame = first + floor(current_time * rate)`. -/
theorem model_update_advance_in_range {M : Type} [Monoid M] (L : ExtLib M)
    (m : Model M) (d : ℚ) (ai : ℕ)
    (ha : m.current_anim = some ai)
    (hnohold : ¬((m.anims ai).last + (m.anims ai).first
        < floorNat (m.current_time * (m.anims ai).rate)
        ∧ (m.anims ai).loop = false))
    (hlt : (m.anims ai).first + floorNat (m.current_time * (m.anims ai).rate)
        < (m.anims ai).last + (m.anims ai).first) :
    (model_update L m d).current_frame
      = (m.anims ai).first + floorNat (m.current_time * (m.anims ai).rate) := by
  simp only [model_update, mix_pose, model_update_matrices, ha]
  rw [if_neg hnohold, if_neg (not_le.mpr hlt)]

/-- Claim C1 is false on the code: with the active clip
`{first := 2, last := 3, rate := 1}` and `current_time = 2`, a single
`model_update` tick sets `current_frame = 4`, outside
`[first_frame, last_frame] = [2, 3]` — the bounds check compares
against `last + first = 5`, so frames `4` and `5` escape the clip. -/
theorem model_update_frame_escapes_clip_range :
    mC1.current_anim = some 0
    ∧ (mC1.anims 0).first = 2
    ∧ (mC1.anims 0).last = 3
    ∧ (model_update trivExt mC1 0).current_frame = 4 := by
  refine ⟨rfl, rfl, rfl, ?_⟩
  rw [model_update_advance_in_range trivExt mC1 0 0 rfl
    (by simp [mC1, floorNat]) (by simp [mC1, floorNat])]
  simp [mC1, floorNat]

/-- Claim C2 is false on the code: with `anims_len = 1` the only valid
clip index is `0`, yet `model_set_anim` with the out-of-range index `1`
does not fall back to Idle — the guard `index > anims_len` accepts
`index = anims_len`, activating the out-of-bounds clip slot. -/
theorem model_set_anim_accepts_out_of_range_len :
    mC2.anims_len = 1 ∧ (model_set_anim mC2 1).current_anim = some 1 := by
  exact ⟨rfl, rfl⟩

/-- Claim C10: for every index `model_set_anim` rejects
(`index > anims_len`), only `current_anim` is cleared; `current_time`
and `current_frame` keep the values they had before the call. -/
theorem model_set_anim_invalid_preserves_playback {M : Type} (m : Model M)
    (index : ℕ) (h : m.anims_len < index) :
    (model_set_anim m index).current_anim = none
    ∧ (model_set_anim m index).current_time = m.current_time
    ∧ (model_set_anim m index).current_frame = m.current_frame := by
  simp only [model_set_anim]
  rw [if_pos h]
  exact ⟨rfl, rfl, rfl⟩

/-- Witness for C10 at `index = 2`, `anims_len = 1`. -/
theorem model_set_anim_invalid_preserves_playback_witness :
    mC2.anims_len < 2
    ∧ ((model_set_anim mC2 2).current_anim = none
       ∧ (model_set_anim mC2 2).current_time = mC2.current_time
       ∧ (model_set_anim mC2 2).current_frame = mC2.current_frame) :=
  ⟨by decide, model_set_anim_invalid_preserves_playback mC2 2 (by decide)⟩

/-- With any span formula, a tick that trips the hold test (span below
the elapsed frame, non-looping clip) is a complete no-op. -/
theorem model_update_span_hold_noop {M : Type} [Monoid M] (span : ℕ → ℕ → ℕ)
    (L : ExtLib M) (m : Model M) (d : ℚ) (ai : ℕ)
    (ha : m.current_anim = some ai)
    (hf : span (m.anims ai).first (m.anims ai).last
        < floorNat (m.current_time * (m.anims ai).rate))
    (hl : (m.anims ai).loop = false) :
    model_update_span span L m d = m := by
  simp only [model_update_span, ha]
  rw [if_pos ⟨hf, hl⟩]

/-- With any span formula, a proceeding tick on a non-looping clip whose
recomputed frame reaches the span clamps `current_frame` to `last`. -/
theorem model_update_span_clamp {M : Type} [Monoid M] (span : ℕ → ℕ → ℕ)
    (L : ExtLib M) (m : Model M) (d : ℚ) (ai : ℕ)
    (ha : m.current_anim = some ai)
    (hnohold : ¬(span (m.anims ai).first (m.anims ai).last
        < floorNat (m.current_time * (m.anims ai).rate)
        ∧ (m.anims ai).loop = false))
    (hge : span (m.anims ai).first (m.anims ai).last
        ≤ (m.anims ai).first + floorNat (m.current_time * (m.anims ai).rate))
    (hl : (m.anims ai).loop = false) :
    (model_update_span span L m d).current_frame = (m.anims ai).last := by
  simp only [model_update_span, mix_pose, model_update_matrices, ha]
  rw [if_neg hnohold, if_pos hge]
  simp [hl]

/-- Claim C3: `model_update` is exactly `model_update_span` instantiated
with the literal sum `last + first` as the span in the hold test, the
wrap/clamp threshold, and the next-frame threshold; instantiating the
span with the difference `last - first` instead yields a different
result (on `mC3` the sum-span update clamps `current_frame` to `3`
while the difference-span update holds at `0`), so the sum is not an
innocuous rewriting of the difference. -/
theorem model_update_span_is_literal_sum {M : Type} [Monoid M] (L : ExtLib M) :
    (∀ (m : Model M) (d : ℚ),
        model_update L m d = model_update_span (fun f l => l + f) L m d)
    ∧ (model_update_span (fun f l => l + f) trivExt mC3 1).current_frame = 3
    ∧ (model_update_span (fun f l => l - f) trivExt mC3 1).current_frame = 0 := by
  refine ⟨fun m d => ?_, ?_, ?_⟩
  · cases h : m.current_anim with
    | none => simp only [model_update, model_update_span, h]
    | some ai => simp only [model_update, model_update_span, h]
  · rw [model_update_span_clamp (fun f l => l + f) trivExt mC3 1 0 rfl
      (by simp [mC3, floorNat]) (by simp [mC3, floorNat]) rfl]
    rfl
  · rw [model_update_span_hold_noop (fun f l => l - f) trivExt mC3 1 0 rfl
      (by simp [mC3, floorNat]) rfl]
    rfl

/-- Claim C4: on a non-looping active clip, whenever
`floor(current_time * rate)` exceeds the frame span `last + first` at
the start of an advance, `model_update` changes nothing: the whole
model state — `current_time`, `current_frame`, pose buffer and
skeleton matrices included — is returned unchanged. -/
theorem model_update_nonloop_hold_is_noop {M : Type} [Monoid M] (L : ExtLib M)
    (m : Model M) (d : ℚ) (ai : ℕ)
    (ha : m.current_anim = some ai)
    (hl : (m.anims ai).loop = false)
    (hf : (m.anims ai).last + (m.anims ai).first
        < floorNat (m.current_time * (m.anims ai).rate)) :
    model_update L m d = m := by
  simp only [model_update, ha]
  rw [if_pos ⟨hf, hl⟩]

/-- Witness for C4: clip `{first := 0, last := 1, rate := 1}`,
non-looping, at `current_time = 5`. -/
theorem model_update_nonloop_hold_is_noop_witness :
    (mC4.anims 0).loop = false ∧ model_update trivExt mC4 1 = mC4 :=
  ⟨rfl, model_update_nonloop_hold_is_noop trivExt mC4 1 0 rfl rfl
    (by simp [mC4, floorNat])⟩

/-- Claim C5: when the advance proceeds (no non-loop hold) and the
freshly computed `current_frame = first + floor(current_time * rate)`
reaches the span `last + first`, a looping clip ends the tick with
`current_time` exactly `0` and `current_frame` recomputed from the
reset time — hence equal to `first` — while a non-looping clip ends
with `current_frame` clamped to `last`. -/
theorem model_update_loop_wrap_and_nonloop_clamp {M : Type} [Monoid M]
    (L : ExtLib M) (m : Model M) (d : ℚ) (ai : ℕ)
    (ha : m.current_anim = some ai)
    (hnohold : ¬((m.anims ai).last + (m.anims ai).first
        < floorNat (m.current_time * (m.anims ai).rate)
        ∧ (m.anims ai).loop = false))
    (hge : (m.anims ai).last + (m.anims ai).first
        ≤ (m.anims ai).first + floorNat (m.current_time * (m.anims ai).rate)) :
    ((m.anims ai).loop = true →
        (model_update L m d).current_time = 0
        ∧ (model_update L m d).current_frame = (m.anims ai).first)
    ∧ ((m.anims ai).loop = false →
        (model_update L m d).current_frame = (m.anims ai).last) := by
  simp only [model_update, mix_pose, model_update_matrices, ha]
  rw [if_neg hnohold]
  constructor
  · intro hb
    rw [if_pos hge]
    simp [hb, floorNat]
  · intro hb
    rw [if_pos hge]
    simp [hb]

/-- Witness for C5: looping clip `{first := 1, last := 2, rate := 1}`
at `current_time = 3`, exactly at the wrap threshold. -/
theorem model_update_loop_wrap_and_nonloop_clamp_witness :
    (mC5.anims 0).loop = true
    ∧ (model_update trivExt mC5 1).current_time = 0
    ∧ (model_update trivExt mC5 1).current_frame = (mC5.anims 0).first :=
  ⟨rfl, (model_update_loop_wrap_and_nonloop_clamp trivExt mC5 1 0 rfl
      (by simp [mC5]) (by simp [mC5, floorNat])).1 rfl⟩

/-- Linear interpolation of a vector with itself is that vector. -/
theorem vec3_lerp_self (v : Vec3) (t : ℚ) : vec3_lerp v v t = v := by
  cases v
  simp only [vec3_lerp, sub_self, zero_mul, add_zero]

/-- Linear interpolation at weight `0` returns the first endpoint. -/
theorem vec3_lerp_zero (u v : Vec3) : vec3_lerp u v 0 = u := by
  cases u
  simp only [vec3_lerp, mul_zero, add_zero]

/-- Linear interpolation at weight `1` returns the second endpoint. -/
theorem vec3_lerp_one (u v : Vec3) : vec3_lerp u v 1 = v := by
  cases v
  simp only [vec3_lerp, mul_one, add_sub_cancel]

/-- Claim C7: for every pair of frames and every weight — clamped to
`[0,1]` first — `mix_pose` writes, for each bone, the lerp of the two
translations, the renormalized slerp of the two rotations, and the lerp
of the two scales, and changes nothing else in the model. -/
theorem mix_pose_blend_effect {M : Type} (L : ExtLib M) (m : Model M)
    (a b : ℕ → Pose) (w : ℚ) (i : ℕ) (hi : i < m.bones_len) :
    (mix_pose L m a b w).pose i =
      { translate := vec3_lerp (a i).translate (b i).translate (min (max w 0) 1)
        rotate := L.normF (L.slerpF (a i).rotate (b i).rotate (min (max w 0) 1))
        scale := vec3_lerp (a i).scale (b i).scale (min (max w 0) 1) }
    ∧ (mix_pose L m a b w).current_time = m.current_time
    ∧ (mix_pose L m a b w).current_frame = m.current_frame
    ∧ (mix_pose L m a b w).current_anim = m.current_anim
    ∧ (mix_pose L m a b w).skeleton = m.skeleton
    ∧ (mix_pose L m a b w).frames = m.frames
    ∧ (mix_pose L m a b w).inverse_base = m.inverse_base
    ∧ (mix_pose L m a b w).bones = m.bones
    ∧ (mix_pose L m a b w).bones_len = m.bones_len
    ∧ (mix_pose L m a b w).anims = m.anims
    ∧ (mix_pose L m a b w).anims_len = m.anims_len := by
  refine ⟨?_, rfl, rfl, rfl, rfl, rfl, rfl, rfl, rfl, rfl, rfl⟩
  simp only [mix_pose]
  rw [if_pos hi]

/-- Witness for C7 at weight `2`, outside `[0,1]`. -/
theorem mix_pose_blend_effect_witness :
    0 < mC7.bones_len
    ∧ (mix_pose trivExt mC7 fA fB 2).pose 0 =
      { translate := vec3_lerp (fA 0).translate (fB 0).translate
          (min (max 2 0) 1)
        rotate := trivExt.normF (trivExt.slerpF (fA 0).rotate (fB 0).rotate
          (min (max 2 0) 1))
        scale := vec3_lerp (fA 0).scale (fB 0).scale (min (max 2 0) 1) } :=
  ⟨by decide, (mix_pose_blend_effect trivExt mC7 fA fB 2 0 (by decide)).1⟩

/-- Claim C8: blending a frame with itself reproduces the frame exactly
for every bone (using the external library's contract that slerp of a
quaternion with itself, renormalized, is that quaternion), and blending
two frames at weight `0` / weight `1` reproduces the first / second
frame's translate and scale. -/
theorem mix_pose_identity_and_endpoints {M : Type} (L : ExtLib M)
    (hid : ∀ q w, L.normF (L.slerpF q q w) = q)
    (m : Model M) (a b : ℕ → Pose) (w : ℚ)
    (hw0 : 0 ≤ w) (hw1 : w ≤ 1) (i : ℕ) (hi : i < m.bones_len) :
    (mix_pose L m a a w).pose i = a i
    ∧ ((mix_pose L m a b 0).pose i).translate = (a i).translate
    ∧ ((mix_pose L m a b 0).pose i).scale = (a i).scale
    ∧ ((mix_pose L m a b 1).pose i).translate = (b i).translate
    ∧ ((mix_pose L m a b 1).pose i).scale = (b i).scale := by
  have h0 : min (max (0 : ℚ) 0) 1 = 0 := by
    rw [max_self]
    exact min_eq_left zero_le_one
  have h1 : min (max (1 : ℚ) 0) 1 = 1 := by
    rw [max_eq_left zero_le_one]
    exact min_eq_left le_rfl
  refine ⟨?_, ?_, ?_, ?_, ?_⟩
  · simp only [mix_pose, if_pos hi, vec3_lerp_self, hid]
  · simp only [mix_pose, if_pos hi, h0, vec3_lerp_zero]
  · simp only [mix_pose, if_pos hi, h0, vec3_lerp_zero]
  · simp only [mix_pose, if_pos hi, h1, vec3_lerp_one]
  · simp only [mix_pose, if_pos hi, h1, vec3_lerp_one]

/-- Witness for C8 at weight `1` with the trivial library, whose slerp
returns its first argument and whose normalizer is the identity. -/
theorem mix_pose_identity_and_endpoints_witness :
    (0 : ℚ) ≤ 1 ∧ (1 : ℚ) ≤ 1 ∧ 0 < mC7.bones_len
    ∧ (mix_pose trivExt mC7 fA fA 1).pose 0 = fA 0 :=
  ⟨zero_le_one, le_refl 1, by decide,
    (mix_pose_identity_and_endpoints trivExt (fun _ _ => rfl) mC7 fA fB 1
      zero_le_one (le_refl 1) 0 (by decide)).1⟩

/-- Claim C9: both rotation-writing operations — `mix_pose` and
`model_set_pose` — pass every rotation through the normalizer before
storing it, so if the external `quat_norm` returns unit quaternions,
every stored rotation is unit-length after either write. -/
theorem pose_writes_renormalize_rotations {M : Type} (L : ExtLib M)
    (hn : ∀ q, unitQuat (L.normF q))
    (m : Model M) (a b : ℕ → Pose) (f : ℕ → Pose) (w : ℚ)
    (i : ℕ) (hi : i < m.bones_len) :
    unitQuat ((mix_pose L m a b w).pose i).rotate
    ∧ unitQuat ((model_set_pose L m f).pose i).rotate := by
  constructor
  · simp only [mix_pose]
    rw [if_pos hi]
    exact hn _
  · simp only [model_set_pose]
    rw [if_pos hi]
    exact hn _

/-- Witness for C9 with a normalizer returning the identity quaternion. -/
theorem pose_writes_renormalize_rotations_witness :
    unitQuat ((mix_pose unitExt mC7 fA fB (1 / 2)).pose 0).rotate
    ∧ unitQuat ((model_set_pose unitExt mC7 fB).pose 0).rotate :=
  pose_writes_renormalize_rotations unitExt
    (fun _ => by simp [unitQuat, unitExt, trivExt]) mC7 fA fB fB (1 / 2) 0
    (by decide)

/-- The `transform[]` prefix built for the first `n` bones has length
`n`. -/
theorem transforms_length {M : Type} [Monoid M] (L : ExtLib M) (m : Model M) :
    ∀ n, (transforms L m n).length = n := by
  intro n
  induction n with
  | zero => rfl
  | succ k ih => simp [transforms, ih]

/-- `calc_bone_matrix` builds exactly the spec's local matrix: the
leading identity factor is absorbed by `one_mul`. -/
theorem calc_bone_matrix_eq_localSpec {M : Type} [Monoid M] (L : ExtLib M)
    (m : Model M) (i : ℕ) :
    calc_bone_matrix L (m.pose i) = localSpec L m i := by
  simp [calc_bone_matrix, localSpec, one_mul]

/-- Under the ancestor-first precondition (each parent index is below
its child's index), entry `i` of the `transform[]` array equals the
spec's recursively defined world transform of bone `i`. -/
theorem transforms_getD {M : Type} [Monoid M] (L : ExtLib M) (m : Model M) :
    ∀ n, (∀ j, j < n → 0 ≤ (m.bones j).parent → ((m.bones j).parent).toNat < j) →
      ∀ i, i < n → (transforms L m n).getD i 1 = worldSpec L m i := by
  intro n
  induction n with
  | zero => intro _ i hi; exact absurd hi (Nat.not_lt_zero i)
  | succ k ih =>
    intro hpar i hi
    have hpk : ∀ j, j < k → 0 ≤ (m.bones j).parent →
        ((m.bones j).parent).toNat < j :=
      fun j hj => hpar j (Nat.lt_succ_of_lt hj)
    have hlen : (transforms L m k).length = k := transforms_length L m k
    simp only [transforms]
    rcases Nat.lt_succ_iff_lt_or_eq.mp hi with hlt | heq
    · rw [List.getD_append _ _ _ _ (by rw [hlen]; exact hlt)]
      exact ih hpk i hlt
    · subst heq
      rw [List.getD_append_right _ _ _ _ (le_of_eq hlen), hlen,
        Nat.sub_self]
      by_cases hp : 0 ≤ (m.bones i).parent
      · have hpi : ((m.bones i).parent).toNat < i :=
          hpar i (Nat.lt_succ_self i) hp
        rw [if_pos hp]
        conv_rhs => rw [worldSpec]
        rw [dif_pos ⟨hp, hpi⟩]
        simp only [List.getD_cons_zero]
        rw [ih hpk _ hpi, calc_bone_matrix_eq_localSpec]
      · rw [if_neg hp]
        conv_rhs => rw [worldSpec]
        rw [dif_neg (fun hc => hp hc.1)]
        simp only [List.getD_cons_zero]
        rw [calc_bone_matrix_eq_localSpec]

/-- Claim C6: for every bone, under the ancestor-first precondition,
the skinning matrix written by `model_update_matrices` is the bone's
inverse bind-pose matrix composed with its world transform, where the
world transform is the local matrix (scale, then rotation, then
translation) composed with the parent's world transform, or the local
matrix alone at a root. -/
theorem model_update_matrices_skinning {M : Type} [Monoid M] (L : ExtLib M)
    (m : Model M)
    (hpar : ∀ j, j < m.bones_len → 0 ≤ (m.bones j).parent →
        ((m.bones j).parent).toNat < j)
    (i : ℕ) (hi : i < m.bones_len) :
    (model_update_matrices L m).skeleton i
      = m.inverse_base i * worldSpec L m i := by
  simp only [model_update_matrices]
  rw [if_pos hi, transforms_getD L m m.bones_len hpar i hi]

/-- Witness for C6 on a two-bone chain over the monoid `ℚ`. -/
theorem model_update_matrices_skinning_witness :
    (model_update_matrices ratExt mC6).skeleton 1
      = mC6.inverse_base 1 * worldSpec ratExt mC6 1 :=
  model_update_matrices_skinning ratExt mC6 (by decide) 1 (by decide)
